import Mathlib

/-!
Verification of the forecast-and-derived-metrics pipeline of `src/app.py`
(EarthlyAI material production and CO2 emissions dashboard).

The pipeline is embedded shallowly:
* spreadsheet cell values of a numeric column are `RawVal` (a finite
  rational, NaN, +inf or -inf) — Python floats modelled as exact rationals,
  with the non-finite values kept as explicit constructors;
* pandas `Series` become Lean `List`s (order = row order);
* dates are modelled at month granularity as natural numbers (a month
  index); `pd.date_range(..., freq='M')` with monthly frequency yields
  consecutive month-ends, i.e. consecutive month indices;
* material identifiers are `String`s, de-duplication is `List.toFinset`.
-/

namespace EarthlyAI

/-- A cell of a numeric spreadsheet column: a finite value, NaN, or ±infinity
(Python float semantics, with the finite values modelled as rationals). -/
inductive RawVal where
  | num (q : ℚ)
  | nan
  | posInf
  | negInf
deriving DecidableEq

/-- `some q` iff the cell holds a finite value.  `replace([np.inf, -np.inf], np.nan)`
followed by `dropna()` keeps exactly the finite cells (app.py lines 111-113). -/
def toFiniteVal : RawVal → Option ℚ
  | .num q => some q
  | _ => none

/- ### Material Coverage Analyzer (app.py lines 59-80) -/

/-- `Series.nunique()`: number of distinct entries of an (already `dropna`-ed)
column (app.py lines 63-64, 67). -/
def nunique (xs : List String) : ℕ := xs.toFinset.card

/-- `len(set(xs).intersection(set(ys)))` (app.py line 69). -/
def overlap_count (xs ys : List String) : ℕ := (xs.toFinset ∩ ys.toFinset).card

/-- `pd.concat` of the two material columns followed by `nunique()`
(app.py lines 66-67). -/
def all_materials_unique (xs ys : List String) : ℕ := nunique (xs ++ ys)

/-- `unique_solids = solids_count - overlap_count` (app.py line 70);
Python integer subtraction, hence `ℤ`. -/
def unique_solids (xs ys : List String) : ℤ :=
  (nunique xs : ℤ) - overlap_count xs ys

/-- `unique_concentrates = concentrates_count - overlap_count` (app.py line 71). -/
def unique_concentrates (xs ys : List String) : ℤ :=
  (nunique ys : ℤ) - overlap_count xs ys

/-- The six-entry coverage summary dict (app.py lines 73-80). -/
structure MaterialDiversitySummary where
  uniqueMaterialsSolids : ℤ
  uniqueMaterialsConcentrates : ℤ
  totalUniqueMaterialsCombined : ℤ
  overlappingMaterials : ℤ
  uniqueToSolids : ℤ
  uniqueToConcentrates : ℤ
deriving DecidableEq

/-- `material_diversity_summary` (app.py lines 73-80), built from the two
extracted material-name columns (empty entries already dropped). -/
def material_diversity_summary (xs ys : List String) : MaterialDiversitySummary :=
  { uniqueMaterialsSolids := nunique xs
    uniqueMaterialsConcentrates := nunique ys
    totalUniqueMaterialsCombined := all_materials_unique xs ys
    overlappingMaterials := overlap_count xs ys
    uniqueToSolids := unique_solids xs ys
    uniqueToConcentrates := unique_concentrates xs ys }

/- ### Series Preparer (app.py lines 108-119) -/

/-- One numeric column: `replace([np.inf, -np.inf], np.nan).dropna()`
(app.py lines 111-113). Keeps exactly the finite entries, in row order. -/
def cleanSeries (xs : List RawVal) : List ℚ := xs.filterMap toFiniteVal

/-- `min_length = min(len(production), len(co2_emissions), len(plastics_co2_emissions))`
(app.py line 116). -/
def min_length (a b c : List RawVal) : ℕ :=
  min (min (cleanSeries a).length (cleanSeries b).length) (cleanSeries c).length

/-- The three prepared series after cleaning and `.iloc[:min_length]` truncation
(app.py lines 111-119). -/
def prepared (a b c : List RawVal) : List ℚ × List ℚ × List ℚ :=
  ((cleanSeries a).take (min_length a b c),
   (cleanSeries b).take (min_length a b c),
   (cleanSeries c).take (min_length a b c))

/-- How a run halts at the model-fitting stage (app.py lines 124-130). -/
inductive RunHalt where
  | fitValueErrorCaught
deriving DecidableEq

/-- Modelled from the spec: `ExponentialSmoothing(series, trend='add',
seasonal=None).fit()` (app.py lines 125-127) is external library code not
under `src/`; on an empty series it raises `ValueError`, which lines 128-130
catch and turn into an error message plus `st.stop()`, halting the run.
A nonempty series is modelled as fitting successfully (degenerate nonempty
series may also raise in the library; that case is not needed here).  The
source contains no `EmptySeriesError` and no emptiness check before the fit
(lines 108-127). -/
def fitStage (p q r : List ℚ) : Except RunHalt Unit :=
  if p.isEmpty || q.isEmpty || r.isEmpty then .error .fitValueErrorCaught
  else .ok ()

/-- `production_data.set_index('Date')` (app.py lines 109-110): pairs each parsed
date (month-granularity timestamp) with the row's value, preserving row order.
No sorting is performed by `set_index`. -/
def setIndexByDate (dates : List ℕ) (vals : List RawVal) : List (ℕ × RawVal) :=
  dates.zip vals

/-- Cleaning of a date-indexed column: `replace` + `dropna` keeps the index entry
of every kept row (pandas keeps each surviving row's index label). -/
def cleanIndexed (xs : List (ℕ × RawVal)) : List (ℕ × ℚ) :=
  xs.filterMap fun p => (toFiniteVal p.2).map fun q => (p.1, q)

/-- The timestamps of a prepared, date-indexed series. -/
def seriesTimestamps (dates : List ℕ) (vals : List RawVal) : List ℕ :=
  (cleanIndexed (setIndexByDate dates vals)).map Prod.fst

/-- Strictly increasing timestamp sequence. -/
def strictlyIncreasing (xs : List ℕ) : Prop := xs.Chain' (· < ·)

/-- Executable adjacent-pairs check for strict increase. -/
def chainLTBool : List ℕ → Bool
  | [] => true
  | [_] => true
  | x :: y :: rest => decide (x < y) && chainLTBool (y :: rest)

theorem chainLTBool_iff : ∀ xs : List ℕ, chainLTBool xs = true ↔ xs.Chain' (· < ·)
  | [] => by simp [chainLTBool]
  | [x] => by simp [chainLTBool]
  | x :: y :: rest => by
    rw [chainLTBool, Bool.and_eq_true, decide_eq_true_iff,
      List.chain'_cons, chainLTBool_iff (y :: rest)]

instance (xs : List ℕ) : Decidable (strictlyIncreasing xs) :=
  decidable_of_iff _ (chainLTBool_iff xs)

/- ### Forecast Engine (app.py lines 121-140) -/

/-- `future_steps = 24` (app.py line 135). -/
def future_steps : ℕ := 24

/-- `pd.date_range(start, periods, freq='M')` at month granularity: `periods`
consecutive month-end dates, the first in the month of `start` (rolling a
mid-month `start` forward to its own month-end keeps the month index). -/
def dateRangeM (start periods : ℕ) : List ℕ :=
  (List.range periods).map (start + ·)

/-- `future_dates = pd.date_range(start=production.index[-1], periods=future_steps + 1,
freq='M')[1:]` (app.py line 136), parametrised by the month of the last
historical date of the prepared production series. -/
def future_dates (lastDate : ℕ) : List ℕ :=
  (dateRangeM lastDate (future_steps + 1)).drop 1

/-- `model.forecast(h)` for the fitted additive-trend, no-seasonal
exponential-smoothing model (app.py lines 125-127, 138-140): the `h`
out-of-sample point forecasts of the Holt linear-trend model,
`ŷ(T+i) = level + i·slope`, one value per future step. -/
def holtForecast (level slope : ℚ) (h : ℕ) : List ℚ :=
  (List.range h).map fun i => level + (i + 1 : ℕ) * slope

/- ### KPI Derivation (app.py lines 143-158) -/

/-- pandas `Series.cumsum()` on an all-finite series: entry `i` is the sum of
the first `i + 1` entries. -/
def cumsum (xs : List ℚ) : List ℚ :=
  (List.range xs.length).map fun i => (xs.take (i + 1)).sum

/-- The per-period differences `plastics - material` (app.py lines 152-154,
the expression inside `.cumsum()`). -/
def co2Diffs (plastic material : List ℚ) : List ℚ :=
  List.zipWith (· - ·) plastic material

/-- `predictions['Cumulative CO2 Reduction']` (app.py lines 152-154): running
sum of the per-period plastics-minus-material differences. -/
def cumulative_co2_reduction (plastic material : List ℚ) : List ℚ :=
  cumsum (co2Diffs plastic material)

/-- An entry of a derived float column: finite, ±infinity or NaN. -/
inductive EVal where
  | val (q : ℚ)
  | posInf
  | negInf
  | nan
deriving DecidableEq

/-- Finite test for a derived entry. -/
def EVal.isFinite : EVal → Bool
  | .val _ => true
  | _ => false

/-- float (numpy/pandas) division of finite values: for a zero denominator the
result is +inf, -inf or NaN by the sign of the numerator; otherwise the exact
quotient. -/
def fdiv (a b : ℚ) : EVal :=
  if b = 0 then
    if 0 < a then .posInf else if a < 0 then .negInf else .nan
  else .val (a / b)

/-- `predictions['CO2 per Ton (...)'] = co2column / predictions['Predicted
Production (TPM)']` (app.py lines 150-151): element-wise float division. -/
def co2PerTon (co2 prod : List ℚ) : List EVal :=
  List.zipWith fdiv co2 prod

/-- `industries_count = 100` (app.py line 156). -/
def industries_count : ℚ := 100

/-- The future-predictions table (app.py lines 143-158), one field per column. -/
structure Predictions where
  date : List ℕ
  predictedProduction : List ℚ
  predictedCO2Material : List ℚ
  predictedCO2Plastics : List ℚ
  co2PerTonMaterial : List EVal
  co2PerTonPlastics : List EVal
  cumulativeCO2Reduction : List ℚ
  totalCO2Reduction100 : List ℚ
  plasticAvoided100 : List ℚ

/-- Assembly of the `predictions` DataFrame from the future dates and the three
forecast sequences (app.py lines 143-158). -/
def mkPredictions (dates : List ℕ) (fp fc fpl : List ℚ) : Predictions :=
  { date := dates
    predictedProduction := fp
    predictedCO2Material := fc
    predictedCO2Plastics := fpl
    co2PerTonMaterial := co2PerTon fc fp
    co2PerTonPlastics := co2PerTon fpl fp
    cumulativeCO2Reduction := cumulative_co2_reduction fpl fc
    totalCO2Reduction100 := (cumulative_co2_reduction fpl fc).map (· * industries_count)
    plasticAvoided100 := fp.map (· * industries_count) }

/-- Monotonically non-decreasing sequence. -/
def monoND (xs : List ℚ) : Prop := xs.Chain' (· ≤ ·)

/-- Executable adjacent-pairs check for non-decrease. -/
def chainLEBool : List ℚ → Bool
  | [] => true
  | [_] => true
  | x :: y :: rest => decide (x ≤ y) && chainLEBool (y :: rest)

theorem chainLEBool_iff : ∀ xs : List ℚ, chainLEBool xs = true ↔ xs.Chain' (· ≤ ·)
  | [] => by simp [chainLEBool]
  | [x] => by simp [chainLEBool]
  | x :: y :: rest => by
    rw [chainLEBool, Bool.and_eq_true, decide_eq_true_iff,
      List.chain'_cons, chainLEBool_iff (y :: rest)]

instance (xs : List ℚ) : Decidable (monoND xs) :=
  decidable_of_iff _ (chainLEBool_iff xs)

/-- Modelled from the spec: the KPI scaling columns with a caller-supplied
`scale_factor` (spec §4.5); the source fixes the factor to the constant
`industries_count = 100`, so the caller-supplied parameter exists only in the
spec's re-architecture. -/
def totalCO2ReductionScaled (cum : List ℚ) (scale : ℚ) : List ℚ :=
  cum.map (· * scale)

/-- Modelled from the spec: `plastic_avoided_scaled = predicted_production *
scale_factor` (spec §4.5); the source fixes the factor to 100. -/
def plasticAvoidedScaled (prodSeq : List ℚ) (scale : ℚ) : List ℚ :=
  prodSeq.map (· * scale)

end EarthlyAI

namespace EarthlyAI

/-- Helper: length of `cumsum`. -/
theorem cumsum_length (xs : List ℚ) : (cumsum xs).length = xs.length := by
  simp [cumsum]

/-- Helper: entry `i` of `cumsum` is the sum of the first `i + 1` entries. -/
theorem cumsum_getD (xs : List ℚ) (i : ℕ) (h : i < xs.length) :
    (cumsum xs).getD i 0 = (xs.take (i + 1)).sum := by
  simp [cumsum, List.getD_eq_getElem?_getD, List.getElem?_range, h]

/-- Helper: `getD` of a `zipWith` inside both lengths. -/
theorem zipWith_getD (f : ℚ → ℚ → ℚ) (as bs : List ℚ) (i : ℕ) (d : ℚ)
    (ha : i < as.length) (hb : i < bs.length) :
    (List.zipWith f as bs).getD i d = f (as.getD i d) (bs.getD i d) := by
  have h : i < (List.zipWith f as bs).length := by
    rw [List.length_zipWith]; omega
  rw [List.getD_eq_getElem?_getD, List.getElem?_zipWith',
    List.getElem?_eq_getElem ha, List.getElem?_eq_getElem hb,
    List.getD_eq_getElem?_getD, List.getD_eq_getElem?_getD,
    List.getElem?_eq_getElem ha, List.getElem?_eq_getElem hb]
  rfl

/-- Helper: `getD` inside bounds is `getElem`. -/
theorem getD_of_lt (xs : List ℚ) (i : ℕ) (d : ℚ) (h : i < xs.length) :
    xs.getD i d = xs[i] := by
  rw [List.getD_eq_getElem?_getD, List.getElem?_eq_getElem h]; rfl

/-- Helper: `getD` of a scalar-multiplied column. -/
theorem map_mul_getD (xs : List ℚ) (c : ℚ) (i : ℕ) :
    (xs.map (· * c)).getD i 0 = xs.getD i 0 * c := by
  simp only [List.getD_eq_getElem?_getD, List.getElem?_map]
  cases xs[i]? <;> simp

/-- Helper: entry `i` of `co2PerTon` is the float division of the entries. -/
theorem co2PerTon_getD (co2 prodSeq : List ℚ) (i : ℕ)
    (hc : i < co2.length) (hp : i < prodSeq.length) :
    (co2PerTon co2 prodSeq).getD i .nan = fdiv (co2.getD i 0) (prodSeq.getD i 0) := by
  unfold co2PerTon
  rw [List.getD_eq_getElem?_getD, List.getElem?_zipWith',
    List.getElem?_eq_getElem hc, List.getElem?_eq_getElem hp,
    getD_of_lt _ _ _ hc, getD_of_lt _ _ _ hp]
  rfl

/-- Helper: `getD` of a truncated series inside the truncation bound. -/
theorem take_getD (xs : List ℚ) (m i : ℕ) (h : i < m) :
    (xs.take m).getD i 0 = xs.getD i 0 := by
  simp [List.getD_eq_getElem?_getD, List.getElem?_take_of_lt h]

/-- Helper: successive `cumsum` entries differ by the next series entry. -/
theorem cumsum_getD_succ (xs : List ℚ) (i : ℕ) (h : i + 1 < xs.length) :
    (cumsum xs).getD (i + 1) 0 = (cumsum xs).getD i 0 + xs.getD (i + 1) 0 := by
  rw [cumsum_getD _ _ h, cumsum_getD _ _ (by omega), List.sum_take_succ _ _ h,
    ← getD_of_lt _ _ 0 h]

/-- Helper: a `cumsum` is non-decreasing iff every entry past the first of the
underlying series is non-negative. -/
theorem cumsum_mono_iff (xs : List ℚ) :
    monoND (cumsum xs) ↔ ∀ i, i + 1 < xs.length → 0 ≤ xs.getD (i + 1) 0 := by
  unfold monoND
  rw [List.chain'_iff_get]
  have hlen : (cumsum xs).length = xs.length := cumsum_length xs
  constructor
  · intro h i hi
    have h2 := h i (by omega)
    rw [List.get_eq_getElem, List.get_eq_getElem,
      ← getD_of_lt _ _ 0 (by omega), ← getD_of_lt _ _ 0 (by omega),
      cumsum_getD_succ _ _ hi] at h2
    linarith
  · intro h i hi
    have hx := h i (by omega)
    rw [List.get_eq_getElem, List.get_eq_getElem,
      ← getD_of_lt _ _ 0 (by omega), ← getD_of_lt _ _ 0 (by omega),
      cumsum_getD_succ _ _ (by omega)]
    linarith

/-- C6 helper: cleaning a date-indexed column keeps a subsequence of the
index labels. -/
theorem cleanIndexed_map_fst_sublist (xs : List (ℕ × RawVal)) :
    List.Sublist ((cleanIndexed xs).map Prod.fst) (xs.map Prod.fst) := by
  induction xs with
  | nil => simp [cleanIndexed]
  | cons x xs ih =>
    cases hx : toFiniteVal x.2 with
    | none =>
      have hstep : cleanIndexed (x :: xs) = cleanIndexed xs := by
        simp [cleanIndexed, List.filterMap_cons, hx]
      rw [hstep, List.map_cons]
      exact ih.cons _
    | some q =>
      have hstep : cleanIndexed (x :: xs) = (x.1, q) :: cleanIndexed xs := by
        simp [cleanIndexed, List.filterMap_cons, hx]
      rw [hstep, List.map_cons, List.map_cons]
      exact ih.cons₂ _

/-- C6 helper: the index labels of a zipped table form a subsequence of the
dates column. -/
theorem map_fst_zip_sublist (dates : List ℕ) (vals : List RawVal) :
    List.Sublist ((dates.zip vals).map Prod.fst) dates := by
  induction dates generalizing vals with
  | nil => simp
  | cons d ds ih =>
    cases vals with
    | nil => simp
    | cons v vs =>
      rw [List.zip_cons_cons, List.map_cons]
      exact (ih vs).cons₂ _

/-- C3 helper: list-level union/intersection card identity. -/
theorem toFinset_card_append (xs ys : List String) :
    all_materials_unique xs ys + overlap_count xs ys = nunique xs + nunique ys := by
  unfold all_materials_unique overlap_count nunique
  rw [List.toFinset_append]
  exact Finset.card_union_add_card_inter _ _

end EarthlyAI

namespace EarthlyAI

/-- **C3.** For every pair of extracted material-name columns (empty entries
dropped), the coverage summary satisfies
`unique_to_a + intersection_count = count_a` (symmetrically for b) and
`union_count = count_a + count_b - intersection_count`, counts being counts
of distinct identifiers. -/
theorem coverage_summary_identities (xs ys : List String) :
    (material_diversity_summary xs ys).uniqueToSolids
        + (material_diversity_summary xs ys).overlappingMaterials
      = (material_diversity_summary xs ys).uniqueMaterialsSolids
    ∧ (material_diversity_summary xs ys).uniqueToConcentrates
        + (material_diversity_summary xs ys).overlappingMaterials
      = (material_diversity_summary xs ys).uniqueMaterialsConcentrates
    ∧ (material_diversity_summary xs ys).totalUniqueMaterialsCombined
      = (material_diversity_summary xs ys).uniqueMaterialsSolids
        + (material_diversity_summary xs ys).uniqueMaterialsConcentrates
        - (material_diversity_summary xs ys).overlappingMaterials := by
  refine ⟨?_, ?_, ?_⟩
  · simp [material_diversity_summary, unique_solids]
  · simp [material_diversity_summary, unique_concentrates]
  · have h := toFinset_card_append xs ys
    simp only [material_diversity_summary]
    omega

/-- **C10.** The overlap count never exceeds either distinct-material count,
so the two subtraction-derived values and all six values of the coverage
summary are non-negative. -/
theorem coverage_summary_nonneg (xs ys : List String) :
    overlap_count xs ys ≤ nunique xs
    ∧ overlap_count xs ys ≤ nunique ys
    ∧ 0 ≤ (material_diversity_summary xs ys).uniqueMaterialsSolids
    ∧ 0 ≤ (material_diversity_summary xs ys).uniqueMaterialsConcentrates
    ∧ 0 ≤ (material_diversity_summary xs ys).totalUniqueMaterialsCombined
    ∧ 0 ≤ (material_diversity_summary xs ys).overlappingMaterials
    ∧ 0 ≤ (material_diversity_summary xs ys).uniqueToSolids
    ∧ 0 ≤ (material_diversity_summary xs ys).uniqueToConcentrates := by
  have hA : overlap_count xs ys ≤ nunique xs :=
    Finset.card_le_card Finset.inter_subset_left
  have hB : overlap_count xs ys ≤ nunique ys :=
    Finset.card_le_card Finset.inter_subset_right
  refine ⟨hA, hB, ?_, ?_, ?_, ?_, ?_, ?_⟩ <;>
    simp only [material_diversity_summary, unique_solids, unique_concentrates] <;>
    omega

/-- **C1.** For every prepared input series on which fitting succeeds (any
fitted model parameters), each of the three forecast sequences has length
exactly 24, and the future dates are 24 consecutive months whose first month
immediately follows the month of the last historical date of the prepared
production series. -/
theorem forecast_horizon_and_dates (l1 b1 l2 b2 l3 b3 : ℚ) (lastDate : ℕ) :
    (holtForecast l1 b1 future_steps).length = 24
    ∧ (holtForecast l2 b2 future_steps).length = 24
    ∧ (holtForecast l3 b3 future_steps).length = 24
    ∧ future_dates lastDate = (List.range 24).map fun i => lastDate + 1 + i := by
  refine ⟨by simp [holtForecast, future_steps], by simp [holtForecast, future_steps],
    by simp [holtForecast, future_steps], ?_⟩
  unfold future_dates dateRangeM future_steps
  rw [List.range_succ_eq_map]
  simp only [List.map_cons, List.drop_succ_cons, List.drop_zero, List.map_map]
  apply List.map_congr_left
  intro a _
  simp only [Function.comp_apply, Nat.succ_eq_add_one]
  omega

/-- **C2.** For 24-length forecast sequences, the cumulative CO2 reduction
column is the running sum of the per-period plastics-minus-material
differences: entry 0 is the first difference, and entry `i` (`i ≥ 1`) is
entry `i - 1` plus the `i`-th difference. -/
theorem cumulative_recurrence (plastic material : List ℚ)
    (hp : plastic.length = 24) (hm : material.length = 24) :
    (cumulative_co2_reduction plastic material).getD 0 0
      = plastic.getD 0 0 - material.getD 0 0
    ∧ ∀ i, 1 ≤ i → i < 24 →
      (cumulative_co2_reduction plastic material).getD i 0
        = (cumulative_co2_reduction plastic material).getD (i - 1) 0
          + (plastic.getD i 0 - material.getD i 0) := by
  have hd : (co2Diffs plastic material).length = 24 := by
    simp [co2Diffs, hp, hm]
  constructor
  · have h0 : (0 : ℕ) < (co2Diffs plastic material).length := by omega
    simp only [cumulative_co2_reduction]
    rw [cumsum_getD _ _ (by omega), List.sum_take_succ _ _ h0]
    simp only [List.take_zero, List.sum_nil, zero_add]
    rw [← getD_of_lt _ _ 0 h0]
    simp only [co2Diffs]
    rw [zipWith_getD _ _ _ _ _ (by omega) (by omega)]
  · intro i h1 h2
    have hi : i < (co2Diffs plastic material).length := by omega
    simp only [cumulative_co2_reduction]
    rw [cumsum_getD _ _ (by omega), cumsum_getD _ _ (by omega)]
    have hii : i - 1 + 1 = i := by omega
    rw [hii, List.sum_take_succ _ _ hi, ← getD_of_lt _ _ 0 hi]
    simp only [co2Diffs]
    rw [zipWith_getD _ _ _ _ _ (by omega) (by omega)]

/-- C2 witness: the first-entry equation of `cumulative_recurrence` at a
concrete pair of 24-length sequences. -/
theorem cumulative_recurrence_witness :
    (cumulative_co2_reduction (List.replicate 24 (2 : ℚ)) (List.replicate 24 (1 : ℚ))).getD 0 0
      = (List.replicate 24 (2 : ℚ)).getD 0 0 - (List.replicate 24 (1 : ℚ)).getD 0 0 :=
  (cumulative_recurrence (List.replicate 24 2) (List.replicate 24 1)
    (by simp) (by simp)).1

/-- **C7.** The scaled KPI columns satisfy row-wise
`total_co2_reduction_scaled = cumulative_co2_reduction * scale_factor` and
`plastic_avoided_scaled = predicted_production * scale_factor` for every
scale factor (so in particular for 1, 100 and 0); the source instantiates
the factor at `industries_count = 100` in the predictions table. -/
theorem scaled_columns (dates : List ℕ) (fp fc fpl : List ℚ) (scale : ℚ) (i : ℕ) :
    (mkPredictions dates fp fc fpl).totalCO2Reduction100
      = totalCO2ReductionScaled (mkPredictions dates fp fc fpl).cumulativeCO2Reduction
          industries_count
    ∧ (mkPredictions dates fp fc fpl).plasticAvoided100
      = plasticAvoidedScaled fp industries_count
    ∧ industries_count = 100
    ∧ (totalCO2ReductionScaled (cumulative_co2_reduction fpl fc) scale).getD i 0
      = (cumulative_co2_reduction fpl fc).getD i 0 * scale
    ∧ (plasticAvoidedScaled fp scale).getD i 0 = fp.getD i 0 * scale := by
  refine ⟨rfl, rfl, rfl, ?_, ?_⟩
  · simp only [totalCO2ReductionScaled]
    exact map_mul_getD _ _ _
  · simp only [plasticAvoidedScaled]
    exact map_mul_getD _ _ _

/-- **C9.** The per-ton-CO2 columns are the element-wise float division of the
CO2 forecast by the production forecast, placed unmodified in the output
table: a zero production entry yields NaN or ±infinity (not coerced), a
nonzero one yields the exact quotient. -/
theorem co2_per_ton_division (dates : List ℕ) (fp fc fpl : List ℚ) (i : ℕ)
    (hc : i < fc.length) (hpl : i < fpl.length) (hp : i < fp.length) :
    (mkPredictions dates fp fc fpl).co2PerTonMaterial = co2PerTon fc fp
    ∧ (mkPredictions dates fp fc fpl).co2PerTonPlastics = co2PerTon fpl fp
    ∧ (fp.getD i 0 = 0 →
        ((co2PerTon fc fp).getD i .nan = .nan ∨ (co2PerTon fc fp).getD i .nan = .posInf
            ∨ (co2PerTon fc fp).getD i .nan = .negInf)
        ∧ ((co2PerTon fpl fp).getD i .nan = .nan ∨ (co2PerTon fpl fp).getD i .nan = .posInf
            ∨ (co2PerTon fpl fp).getD i .nan = .negInf))
    ∧ (fp.getD i 0 ≠ 0 →
        (co2PerTon fc fp).getD i .nan = .val (fc.getD i 0 / fp.getD i 0)
        ∧ (co2PerTon fpl fp).getD i .nan = .val (fpl.getD i 0 / fp.getD i 0)) := by
  refine ⟨rfl, rfl, ?_, ?_⟩
  · intro h0
    constructor
    · rw [co2PerTon_getD _ _ _ hc hp]
      unfold fdiv
      rw [if_pos h0]
      split_ifs <;> tauto
    · rw [co2PerTon_getD _ _ _ hpl hp]
      unfold fdiv
      rw [if_pos h0]
      split_ifs <;> tauto
  · intro h0
    constructor
    · rw [co2PerTon_getD _ _ _ hc hp]
      unfold fdiv
      rw [if_neg h0]
    · rw [co2PerTon_getD _ _ _ hpl hp]
      unfold fdiv
      rw [if_neg h0]

/-- C9 witness: a zero production entry surfaces a non-finite per-ton value
(here +infinity) at a concrete input. -/
theorem co2_per_ton_division_witness :
    (co2PerTon [(1 : ℚ)] [(0 : ℚ)]).getD 0 .nan = .nan
    ∨ (co2PerTon [(1 : ℚ)] [(0 : ℚ)]).getD 0 .nan = .posInf
    ∨ (co2PerTon [(1 : ℚ)] [(0 : ℚ)]).getD 0 .nan = .negInf :=
  ((co2_per_ton_division [] [0] [1] [2] 0 (by decide) (by decide) (by decide)).2.2.1
    (by decide)).1

/-- **C4.** After per-series cleaning and truncation, the three series all
have length equal to the minimum of the three post-cleaning lengths, and each
keeps its first min-length cleaned entries in order (alignment by position,
not by timestamp). -/
theorem prepared_alignment (a b c : List RawVal) (i : ℕ) (h : i < min_length a b c) :
    (prepared a b c).1.length = min_length a b c
    ∧ (prepared a b c).2.1.length = min_length a b c
    ∧ (prepared a b c).2.2.length = min_length a b c
    ∧ (prepared a b c).1.getD i 0 = (cleanSeries a).getD i 0
    ∧ (prepared a b c).2.1.getD i 0 = (cleanSeries b).getD i 0
    ∧ (prepared a b c).2.2.getD i 0 = (cleanSeries c).getD i 0 := by
  refine ⟨?_, ?_, ?_, take_getD _ _ _ h, take_getD _ _ _ h, take_getD _ _ _ h⟩ <;>
  · simp only [prepared, List.length_take, min_length]
    omega

/-- C4 witness: the production series length at a concrete one-row input. -/
theorem prepared_alignment_witness :
    (prepared [RawVal.num 1] [RawVal.num 2] [RawVal.num 3]).1.length
      = min_length [RawVal.num 1] [RawVal.num 2] [RawVal.num 3] :=
  (prepared_alignment [RawVal.num 1] [RawVal.num 2] [RawVal.num 3] 0 (by decide)).1

/-- C5 counterexample: on an input whose three series clean to empty, the
Series Preparer (app.py lines 108-119) completes normally and returns empty
series — it raises no `EmptySeriesError` (that exception exists nowhere in
the source) and performs no emptiness check; the run then reaches the fit
stage, where fitting *is* attempted and only the library's error halts it. -/
theorem no_empty_series_check_counterexample :
    prepared [RawVal.nan] [RawVal.nan] [RawVal.nan] = ([], [], [])
    ∧ fitStage [] [] [] = .error .fitValueErrorCaught := by
  exact ⟨rfl, rfl⟩

/-- **C5 (amended).** If any of the three prepared series is empty, the
Series Preparer does not fail (there is no `EmptySeriesError` and no
pre-fit emptiness check); model fitting is attempted, the library's
`ValueError` is caught, and the run halts with an error message before any
forecast is produced. -/
theorem empty_series_halts_at_fit (a b c : List RawVal)
    (h : (prepared a b c).1 = [] ∨ (prepared a b c).2.1 = []
      ∨ (prepared a b c).2.2 = []) :
    fitStage (prepared a b c).1 (prepared a b c).2.1 (prepared a b c).2.2
      = .error .fitValueErrorCaught := by
  unfold fitStage
  rcases h with h | h | h <;> simp [h]

/-- C5 witness: the amended halting behaviour at a concrete all-NaN input. -/
theorem empty_series_halts_at_fit_witness :
    fitStage (prepared [RawVal.nan] [RawVal.nan] [RawVal.nan]).1
      (prepared [RawVal.nan] [RawVal.nan] [RawVal.nan]).2.1
      (prepared [RawVal.nan] [RawVal.nan] [RawVal.nan]).2.2
      = .error .fitValueErrorCaught :=
  empty_series_halts_at_fit _ _ _ (Or.inl rfl)

/-- C6 counterexample: `set_index('Date')` (app.py lines 109-110) performs no
sort; on a Production table whose rows are not in date order, the prepared
series timestamps are not strictly increasing. -/
theorem series_not_sorted_counterexample :
    ¬ strictlyIncreasing (seriesTimestamps [2, 1] [RawVal.num 1, RawVal.num 2]) := by
  decide

/-- **C6 (amended).** The Series Preparer indexes by the parsed Date column
without sorting, preserving row order: the prepared series timestamps are
strictly increasing whenever the input dates column is already strictly
increasing (and only an already-sorted input satisfies the TimeSeries
invariant). -/
theorem series_order_preserved (dates : List ℕ) (vals : List RawVal)
    (h : strictlyIncreasing dates) :
    strictlyIncreasing (seriesTimestamps dates vals) := by
  have hp : dates.Pairwise (· < ·) := List.chain'_iff_pairwise.mp h
  have h2 : List.Sublist ((setIndexByDate dates vals).map Prod.fst) dates := by
    simp only [setIndexByDate]
    exact map_fst_zip_sublist dates vals
  have hsub : List.Sublist
      ((cleanIndexed (setIndexByDate dates vals)).map Prod.fst) dates :=
    (cleanIndexed_map_fst_sublist _).trans h2
  unfold strictlyIncreasing seriesTimestamps
  exact List.chain'_iff_pairwise.mpr (List.Pairwise.sublist hsub hp)

/-- C6 witness: the amended order preservation at a concrete sorted input. -/
theorem series_order_preserved_witness :
    strictlyIncreasing (seriesTimestamps [1, 2] [RawVal.num 1, RawVal.num 2]) :=
  series_order_preserved [1, 2] [RawVal.num 1, RawVal.num 2] (by decide)

/-- C8 helper (shared by the claim's theorem, counterexample and witness):
for 24-length sequences, the cumulative reduction is non-decreasing iff every
difference from period 1 on is non-negative. -/
theorem mono_iff_aux (plastic material : List ℚ)
    (hp : plastic.length = 24) (hm : material.length = 24) :
    monoND (cumulative_co2_reduction plastic material)
      ↔ ∀ i, i < 24 → 1 ≤ i → material.getD i 0 ≤ plastic.getD i 0 := by
  have hd : (co2Diffs plastic material).length = 24 := by simp [co2Diffs, hp, hm]
  unfold cumulative_co2_reduction
  rw [cumsum_mono_iff, hd]
  constructor
  · intro h i h2 h1
    have hh := h (i - 1) (by omega)
    have hii : i - 1 + 1 = i := by omega
    rw [hii] at hh
    simp only [co2Diffs] at hh
    rw [zipWith_getD _ _ _ _ _ (by omega) (by omega)] at hh
    have hh2 : (0 : ℚ) ≤ plastic.getD i 0 - material.getD i 0 := hh
    linarith
  · intro h i hi
    simp only [co2Diffs]
    rw [zipWith_getD _ _ _ _ _ (by omega) (by omega)]
    have hh := h (i + 1) (by omega) (by omega)
    show (0 : ℚ) ≤ plastic.getD (i + 1) 0 - material.getD (i + 1) 0
    linarith

/-- C8 counterexample: a pair of 24-length sequences whose cumulative
reduction is monotonically non-decreasing although `plastic[0] < material[0]`
— monotonicity of the running sum does not constrain the sign of the first
difference, refuting the original "only if ... for all i". -/
theorem cumulative_mono_only_if_counterexample :
    monoND (cumulative_co2_reduction ((0 : ℚ) :: List.replicate 23 1)
        ((1 : ℚ) :: List.replicate 23 0))
    ∧ ((0 : ℚ) :: List.replicate 23 1).length = 24
    ∧ ((1 : ℚ) :: List.replicate 23 0).length = 24
    ∧ ¬ (∀ i, i < 24 →
        ((1 : ℚ) :: List.replicate 23 0).getD i 0
          ≤ ((0 : ℚ) :: List.replicate 23 1).getD i 0) := by
  refine ⟨(mono_iff_aux _ _ (by decide) (by decide)).mpr (by decide),
    by decide, by decide, fun hcon => ?_⟩
  exact absurd (hcon 0 (by omega)) (by decide)

/-- **C8 (amended).** For 24-length forecast sequences the cumulative
reduction is monotonically non-decreasing iff
`plastic_co2[i] ≥ material_co2[i]` for every i ≥ 1 (the first period's
difference only sets the starting value and is unconstrained); moreover
there exist 24-length inputs violating the condition whose cumulative
sequence is not monotone. -/
theorem cumulative_mono_iff (plastic material : List ℚ)
    (hp : plastic.length = 24) (hm : material.length = 24) :
    (monoND (cumulative_co2_reduction plastic material)
      ↔ ∀ i, i < 24 → 1 ≤ i → material.getD i 0 ≤ plastic.getD i 0)
    ∧ ∃ p m : List ℚ, p.length = 24 ∧ m.length = 24
        ∧ ¬ (∀ i, i < 24 → m.getD i 0 ≤ p.getD i 0)
        ∧ ¬ monoND (cumulative_co2_reduction p m) := by
  refine ⟨mono_iff_aux plastic material hp hm,
    0 :: -1 :: List.replicate 22 0, List.replicate 24 0,
    by decide, by decide, fun hcon => absurd (hcon 1 (by omega)) (by decide),
    fun hmono => ?_⟩
  have h1 := (mono_iff_aux _ _ (by decide) (by decide)).mp hmono 1 (by omega) (by omega)
  exact absurd h1 (by decide)

/-- C8 witness: the amended equivalence at a concrete monotone input. -/
theorem cumulative_mono_iff_witness :
    monoND (cumulative_co2_reduction (List.replicate 24 (1 : ℚ))
      (List.replicate 24 (0 : ℚ))) :=
  (cumulative_mono_iff (List.replicate 24 1) (List.replicate 24 0)
    (by decide) (by decide)).1.mpr (by decide)

end EarthlyAI
